import Mathlib

/-!
# Verification of the minimp MessagePack codec core

A shallow embedding, over `List Nat` byte buffers, of the minimp codec:

* `get_min_size_signed` / `get_min_size_unsigned` from `src/bytesize.rs`
  (and the stale duplicate `lib_get_min_size_signed` from `src/lib.rs`);
* the decoder `DecodedElement::from_slice_idx`, `DecodedElement::byte_size`,
  the array view `ArrayDecoder` (random access, iteration, byte size) and the
  map view `MapDecoder` (iteration, byte size), from `src/decode.rs`;
* the encoder `EncodedElement::write_to` from `src/encode.rs`.

Conventions of the embedding:

* A byte buffer is a `List Nat` whose entries are byte values (< 256 for
  buffers produced by the encoder; the decoder, like the Rust code, reads
  whatever values are present).
* Fallible Rust `Option` results become the `Option` inside an
  `Except Unit`; a Rust *panic* (out-of-bounds index, out-of-bounds slice
  range, `copy_from_slice` length mismatch) becomes `.error ()`.  This keeps
  "no value" (`.ok none`) and "panic" distinct, as they are in Rust.
* `f32`/`f64` values are represented by their big-endian byte sequence (the
  bit pattern), since the code only ever moves the bytes through
  `from_be_bytes` / `to_be_bytes` bijections.  The non-standard
  "local endian" mode uses the host byte order; the host is taken to be
  little-endian, so `to_ne_bytes`/`from_ne_bytes` reverse the big-endian
  byte sequence.
-/

/-! ## Byte-level helpers -/

/-- Big-endian byte sequence to natural number (`uN::from_be_bytes`). -/
def beNat (l : List Nat) : Nat := l.foldl (fun acc b => acc * 256 + b) 0

/-- Two's-complement reading of an unsigned `bits`-wide value
(`iN::from_be_bytes` after `beNat`). -/
def toSigned (bits : Nat) (n : Nat) : Int :=
  if n < 2 ^ (bits - 1) then (n : Int) else (n : Int) - 2 ^ bits

/-- The `w` big-endian bytes of `n` (`uN::to_be_bytes`). -/
def natToBe (w n : Nat) : List Nat :=
  (List.range w).map (fun j => n / 256 ^ (w - 1 - j) % 256)

/-- The `w` big-endian bytes of the two's complement of `i`
(`iN::to_be_bytes`). -/
def intToBe (w : Nat) (i : Int) : List Nat :=
  natToBe w (i.emod (2 ^ (8 * w))).toNat

/-- `&l[a..b]`: panics (`.error`) unless `a ≤ b ≤ l.length`, exactly like a
Rust slice range. -/
def subslice (l : List Nat) (a b : Nat) : Except Unit (List Nat) :=
  if a ≤ b ∧ b ≤ l.length then .ok ((l.drop a).take (b - a)) else .error ()

/-- `l[i] = v` on a mutable slice: panics (`.error`) when `i` is out of
bounds. -/
def setAtE (l : List Nat) (i v : Nat) : Except Unit (List Nat) :=
  if i < l.length then .ok (l.take i ++ v :: l.drop (i + 1)) else .error ()

/-- `l[a..b].copy_from_slice(src)`: panics (`.error`) when the range is out
of bounds or its width differs from `src.length`. -/
def copyRange (l : List Nat) (a b : Nat) (src : List Nat) : Except Unit (List Nat) :=
  if a ≤ b ∧ b ≤ l.length then
    if b - a = src.length then .ok (l.take a ++ src ++ l.drop b) else .error ()
  else .error ()

/-- Read the unsigned field stored at `slice[a..b]`, big-endian unless
`le` (`try_into` then `uN::from_be_bytes` / `uN::from_le_bytes`); the slice
range itself can panic. -/
def readField (slice : List Nat) (a b : Nat) (le : Bool) : Except Unit Nat :=
  match subslice slice a b with
  | .error e => .error e
  | .ok bs => .ok (beNat (if le then bs.reverse else bs))

/-- UTF-8 validity of a byte sequence, as checked by `core::str::from_utf8`
(RFC 3629: no overlongs, no surrogates, maximum U+10FFFF). -/
def utf8Valid : List Nat → Bool
  | [] => true
  | b0 :: rest =>
    if b0 ≤ 0x7F then utf8Valid rest
    else if b0 < 0xC2 then false
    else if b0 ≤ 0xDF then
      match rest with
      | b1 :: r => if 0x80 ≤ b1 ∧ b1 ≤ 0xBF then utf8Valid r else false
      | [] => false
    else if b0 ≤ 0xEF then
      match rest with
      | b1 :: b2 :: r =>
        if ((if b0 = 0xE0 then 0xA0 else 0x80) ≤ b1 ∧
            b1 ≤ (if b0 = 0xED then 0x9F else 0xBF)) ∧
            (0x80 ≤ b2 ∧ b2 ≤ 0xBF) then utf8Valid r else false
      | _ => false
    else if b0 ≤ 0xF4 then
      match rest with
      | b1 :: b2 :: b3 :: r =>
        if ((if b0 = 0xF0 then 0x90 else 0x80) ≤ b1 ∧
            b1 ≤ (if b0 = 0xF4 then 0x8F else 0xBF)) ∧
            (0x80 ≤ b2 ∧ b2 ≤ 0xBF) ∧ (0x80 ≤ b3 ∧ b3 ≤ 0xBF) then utf8Valid r
        else false
      | _ => false
    else false

/-! ## Size helpers (`src/bytesize.rs` and the stale copy in `src/lib.rs`) -/

/-- `get_min_size_signed` from `src/bytesize.rs` (the module `encode.rs`
imports): minimum byte width for a signed 64-bit value. -/
def get_min_size_signed (i : Int) : Nat :=
  if i > 2147483647 ∨ i < -2147483648 then 8
  else if i > 32767 ∨ i < -32768 then 4
  else if i > 127 ∨ i < -128 then 2
  else 1

/-- `get_min_size_unsigned` from `src/bytesize.rs`. -/
def get_min_size_unsigned (i : Nat) : Nat :=
  if i > 4294967295 then 8
  else if i > 65535 then 4
  else if i > 255 then 2
  else 1

/-- The duplicate `get_min_size_signed` at the top of `src/lib.rs`, whose
fallthrough branch returns `8` instead of `1`. -/
def lib_get_min_size_signed (i : Int) : Nat :=
  if i > 2147483647 ∨ i < -2147483648 then 8
  else if i > 32767 ∨ i < -32768 then 4
  else if i > 127 ∨ i < -128 then 2
  else 8

/-! ## Decoded value model (`src/decode.rs`) -/

/-- `ArrayDecoder<'a>`: the borrowed slice is the bytes from the first
element byte on; `element_size` is the lazily memoized per-element width. -/
structure ArrayDecoder where
  header_size : Nat
  local_endian_fields : Bool
  array : List Nat
  elements : Nat
  element_size : Option Nat
  next_element : Nat
  eob : Bool
deriving DecidableEq

/-- `MapDecoder<'a>`: `elements` is the declared number of key/value pairs;
`next_idx` is the byte cursor and `next_map` the pair counter. -/
structure MapDecoder where
  header_size : Nat
  local_endian_fields : Bool
  map : List Nat
  elements : Nat
  next_idx : Nat
  next_map : Nat
  eob : Bool
deriving DecidableEq

/-- `DecodedElement<'a>`.  `Float`/`Double` carry the big-endian bytes of
the IEEE-754 bit pattern; `Str` carries the UTF-8 bytes of the `&str`. -/
inductive DecodedElement where
  | Nil : DecodedElement
  | Int (size : Nat) (val : Int) : DecodedElement
  | UInt (size : Nat) (val : Nat) : DecodedElement
  | Bool (b : Bool) : DecodedElement
  | Bin (header_size : Nat) (val : List Nat) : DecodedElement
  | Float (bytesBE : List Nat) : DecodedElement
  | Double (bytesBE : List Nat) : DecodedElement
  | Str (header_size : Nat) (val : List Nat) : DecodedElement
  | Array (a : ArrayDecoder) : DecodedElement
  | Map (m : MapDecoder) : DecodedElement
  | Ext (header_size : Nat) (exttype : Nat) (data : List Nat) : DecodedElement
deriving DecidableEq

/-- `MapElements<'a>`: one key/value pair yielded by map iteration. -/
structure MapElements where
  key : DecodedElement
  value : DecodedElement
deriving DecidableEq

/-! ## Decoder entry point: `DecodedElement::from_slice_idx` (`src/decode.rs`)

The translation mirrors the Rust dispatch line by line.  `slice[idx]` with
`idx` out of bounds panics, hence the leading `.error` case.  Guarded slice
ranges never panic; the unguarded header reads of `str 16/32`, `bin 16/32`
and `ext 16/32`, and the off-by-one payload range of `ext 8`, go through
`readField`/`subslice` and can `.error` exactly where the Rust code can
panic. -/

def from_slice_idx (slice : List Nat) (idx : Nat)
    (local_endian_fields : Bool) : Except Unit (Option DecodedElement) :=
  match slice.get? idx with
  | none => .error ()
  | some tag =>
    if tag ≤ 0x7f then
      -- positive fixint
      .ok (some (.Int 0 tag))
    else if tag > 0xE0 then
      -- negative fixint; note the strict comparison excludes 0xE0 itself
      .ok (some (.Int 0 ((tag : Int) - 256)))
    else if 0x80 ≤ tag ∧ tag ≤ 0x8F then
      -- fixmap
      .ok (some (.Map { header_size := 0, local_endian_fields,
                        map := slice.drop (idx + 1), elements := tag % 16,
                        next_idx := 0, next_map := 0, eob := false }))
    else if 0x90 ≤ tag ∧ tag ≤ 0x9F then
      -- fixarray
      .ok (some (.Array { header_size := 0, local_endian_fields,
                          array := slice.drop (idx + 1), elements := tag % 16,
                          element_size := none, next_element := 0, eob := false }))
    else if 0xA0 ≤ tag ∧ tag ≤ 0xBF then
      -- fixstr
      let length := tag % 32
      if idx + length < slice.length then
        let s := (slice.drop (idx + 1)).take length
        if utf8Valid s then .ok (some (.Str 0 s)) else .ok none
      else .ok none
    else if tag = 0xC0 then .ok (some .Nil)
    else if tag = 0xCC then
      -- 8-bit uint
      if idx + 1 < slice.length then .ok (some (.UInt 1 (slice.getD (idx + 1) 0)))
      else .ok none
    else if tag = 0xCD then
      -- 16-bit uint
      if idx + 2 < slice.length then
        match readField slice (idx + 1) (idx + 3) local_endian_fields with
        | .error e => .error e
        | .ok n => .ok (some (.UInt 2 n))
      else .ok none
    else if tag = 0xCE then
      -- 32-bit uint
      if idx + 4 < slice.length then
        match readField slice (idx + 1) (idx + 5) local_endian_fields with
        | .error e => .error e
        | .ok n => .ok (some (.UInt 4 n))
      else .ok none
    else if tag = 0xCF then
      -- 64-bit uint
      if idx + 8 < slice.length then
        match readField slice (idx + 1) (idx + 9) local_endian_fields with
        | .error e => .error e
        | .ok n => .ok (some (.UInt 8 n))
      else .ok none
    else if tag = 0xD0 then
      -- 8-bit int; the source builds `[0x0, b]` and reads it as an i16,
      -- zero-extending the payload byte, so the value is always in 0..255
      if idx + 1 < slice.length then
        .ok (some (.Int 1 (toSigned 16 (beNat [0, slice.getD (idx + 1) 0]))))
      else .ok none
    else if tag = 0xD1 then
      -- 16-bit int
      if idx + 2 < slice.length then
        match readField slice (idx + 1) (idx + 3) local_endian_fields with
        | .error e => .error e
        | .ok n => .ok (some (.Int 2 (toSigned 16 n)))
      else .ok none
    else if tag = 0xD2 then
      -- 32-bit int
      if idx + 4 < slice.length then
        match readField slice (idx + 1) (idx + 5) local_endian_fields with
        | .error e => .error e
        | .ok n => .ok (some (.Int 4 (toSigned 32 n)))
      else .ok none
    else if tag = 0xD3 then
      -- 64-bit int
      if idx + 8 < slice.length then
        match readField slice (idx + 1) (idx + 9) local_endian_fields with
        | .error e => .error e
        | .ok n => .ok (some (.Int 8 (toSigned 64 n)))
      else .ok none
    else if tag = 0xC2 then .ok (some (.Bool false))
    else if tag = 0xC3 then .ok (some (.Bool true))
    else if tag = 0xCA then
      -- f32
      if idx + 4 < slice.length then
        match subslice slice (idx + 1) (idx + 5) with
        | .error e => .error e
        | .ok bs => .ok (some (.Float (if local_endian_fields then bs.reverse else bs)))
      else .ok none
    else if tag = 0xCB then
      -- f64
      if idx + 8 < slice.length then
        match subslice slice (idx + 1) (idx + 9) with
        | .error e => .error e
        | .ok bs => .ok (some (.Double (if local_endian_fields then bs.reverse else bs)))
      else .ok none
    else if tag = 0xD9 then
      -- str 8
      if idx + 1 < slice.length then
        let length := slice.getD (idx + 1) 0
        if idx + 1 + length < slice.length then
          let s := (slice.drop (idx + 2)).take length
          if utf8Valid s then .ok (some (.Str 1 s)) else .ok none
        else .ok none
      else .ok none
    else if tag = 0xDA then
      -- str 16; the header read is unguarded in the source
      match readField slice (idx + 1) (idx + 3) local_endian_fields with
      | .error e => .error e
      | .ok size =>
        if idx + 2 + size < slice.length then
          let s := (slice.drop (idx + 3)).take size
          if utf8Valid s then .ok (some (.Str 2 s)) else .ok none
        else .ok none
    else if tag = 0xDB then
      -- str 32; the header read is unguarded in the source
      match readField slice (idx + 1) (idx + 5) local_endian_fields with
      | .error e => .error e
      | .ok size =>
        if idx + 4 + size < slice.length then
          let s := (slice.drop (idx + 5)).take size
          if utf8Valid s then .ok (some (.Str 4 s)) else .ok none
        else .ok none
    else if tag = 0xC4 then
      -- bin 8
      if idx + 1 < slice.length then
        let length := slice.getD (idx + 1) 0
        if idx + 1 + length < slice.length then
          .ok (some (.Bin 1 ((slice.drop (idx + 2)).take length)))
        else .ok none
      else .ok none
    else if tag = 0xC5 then
      -- bin 16; the header read is unguarded in the source
      match readField slice (idx + 1) (idx + 3) local_endian_fields with
      | .error e => .error e
      | .ok size =>
        if idx + 2 + size < slice.length then
          .ok (some (.Bin 2 ((slice.drop (idx + 3)).take size)))
        else .ok none
    else if tag = 0xC6 then
      -- bin 32; the header read is unguarded in the source
      match readField slice (idx + 1) (idx + 5) local_endian_fields with
      | .error e => .error e
      | .ok size =>
        if idx + 4 + size < slice.length then
          .ok (some (.Bin 4 ((slice.drop (idx + 5)).take size)))
        else .ok none
    else if tag = 0xC7 then
      -- ext 8; the payload range `idx+3..idx+3+length` can overrun the
      -- guard `idx + 1 + length < slice.len()` by one byte
      if idx + 2 < slice.length then
        let length := slice.getD (idx + 1) 0
        let t := slice.getD (idx + 2) 0
        if idx + 1 + length < slice.length then
          match subslice slice (idx + 3) (idx + 3 + length) with
          | .error e => .error e
          | .ok d => .ok (some (.Ext 1 t d))
        else .ok none
      else .ok none
    else if tag = 0xC8 then
      -- ext 16; the header read is unguarded in the source
      match readField slice (idx + 1) (idx + 3) local_endian_fields with
      | .error e => .error e
      | .ok size =>
        if idx + 3 + size < slice.length then
          .ok (some (.Ext 2 (slice.getD (idx + 3) 0) ((slice.drop (idx + 4)).take size)))
        else .ok none
    else if tag = 0xC9 then
      -- ext 32; the source reads the type from `idx+4` (the last length
      -- byte) and the payload from `idx+5`
      match readField slice (idx + 1) (idx + 5) local_endian_fields with
      | .error e => .error e
      | .ok size =>
        if idx + 5 + size < slice.length then
          .ok (some (.Ext 4 (slice.getD (idx + 4) 0) ((slice.drop (idx + 5)).take size)))
        else .ok none
    else if tag = 0xD4 then
      -- fixext 1
      if idx + 2 < slice.length then
        .ok (some (.Ext 0 (slice.getD (idx + 1) 0) ((slice.drop (idx + 2)).take 1)))
      else .ok none
    else if tag = 0xD5 then
      -- fixext 2
      if idx + 4 < slice.length then
        .ok (some (.Ext 0 (slice.getD (idx + 1) 0) ((slice.drop (idx + 2)).take 2)))
      else .ok none
    else if tag = 0xD6 then
      -- fixext 4
      if idx + 6 < slice.length then
        .ok (some (.Ext 0 (slice.getD (idx + 1) 0) ((slice.drop (idx + 2)).take 4)))
      else .ok none
    else if tag = 0xD7 then
      -- fixext 8
      if idx + 10 < slice.length then
        .ok (some (.Ext 0 (slice.getD (idx + 1) 0) ((slice.drop (idx + 2)).take 8)))
      else .ok none
    else if tag = 0xD8 then
      -- fixext 16
      if idx + 18 < slice.length then
        .ok (some (.Ext 0 (slice.getD (idx + 1) 0) ((slice.drop (idx + 2)).take 16)))
      else .ok none
    else .ok none

/-! ## `byte_size` and the array/map iterators (`src/decode.rs`)

The only recursion in the source is `DecodedElement::byte_size` calling
`ArrayDecoder::byte_size` / `MapDecoder::byte_size`, which iterate their
view and call `byte_size` on each decoded inner element.  An inner
array/map view stores `&slice[idx+1..]` of a slice from which it decoded
successfully (so that slice is nonempty), hence its stored byte list is
strictly shorter than the parent's: the nesting depth is bounded by the
stored list's length.  The embedding makes that bound explicit with a fuel
parameter that decreases once per `byte_size` entry; every public wrapper
passes fuel at least `length + 2`, which the above shows is never
exhausted, so the fuel-out `.error` branch is unreachable through the
wrappers.

The iterator step functions take the current `byte_size` function `bs` as
an argument (they are not themselves recursive); `for` loops become
`iterLoop`, with an iteration budget of `elements + 1`, which is exact:
every yielding step increments the ordinal (arrays) or pair counter (maps),
and the iterator returns `none` once the counter reaches its bound, so a
reset view yields at most `elements` items and then stops. -/

/-- `ArrayDecoder::reset`. -/
def ArrayDecoder.reset (a : ArrayDecoder) : ArrayDecoder :=
  { a with next_element := 0, eob := false }

/-- `MapDecoder::reset`. -/
def MapDecoder.reset (m : MapDecoder) : MapDecoder :=
  { m with next_map := 0, next_idx := 0, eob := false }

/-- `ArrayDecoder::idx_from_element`, parameterized by the `byte_size`
function used to memoize the width of element 0.  Returns the (possibly
mutated) view alongside the byte index. -/
def arrIdxFromElementA (bs : DecodedElement → Except Unit Nat)
    (a : ArrayDecoder) (element : Nat) : Except Unit (ArrayDecoder × Option Nat) :=
  let step := fun (a' : ArrayDecoder) (elsize : Nat) =>
    if element ≥ a'.elements then (a', none)
    else
      let start_idx := elsize * element
      if start_idx ≥ a'.array.length then ({ a' with eob := true }, none)
      else (a', some start_idx)
  match a.element_size with
  | some s => .ok (step a s)
  | none =>
    match from_slice_idx a.array 0 a.local_endian_fields with
    | .error e => .error e
    | .ok none => .ok (a, none)
    | .ok (some e0) =>
      match bs e0 with
      | .error e => .error e
      | .ok elsize => .ok (step { a with element_size := some elsize } elsize)

/-- `ArrayDecoder::get_element`, parameterized like `arrIdxFromElementA`. -/
def arrGetElementA (bs : DecodedElement → Except Unit Nat)
    (a : ArrayDecoder) (element : Nat) :
    Except Unit (ArrayDecoder × Option DecodedElement) :=
  if element ≥ a.elements then .ok (a, none)
  else
    match arrIdxFromElementA bs a element with
    | .error e => .error e
    | .ok (a', some idx) =>
      match from_slice_idx a'.array idx a'.local_endian_fields with
      | .error e => .error e
      | .ok r => .ok (a', r)
    | .ok (a', none) => .ok (a', none)

/-- `<ArrayDecoder as Iterator>::next`: increments the ordinal *before*
fetching. -/
def arrNextA (bs : DecodedElement → Except Unit Nat) (a : ArrayDecoder) :
    Except Unit (ArrayDecoder × Option DecodedElement) :=
  if a.next_element < a.elements then
    let a' := { a with next_element := a.next_element + 1 }
    arrGetElementA bs a' a'.next_element
  else .ok (a, none)

/-- `MapDecoder::get_at_idx`, parameterized by the `byte_size` function
used to locate the value after the key. -/
def mapGetAtIdxA (bs : DecodedElement → Except Unit Nat)
    (m : MapDecoder) (idx : Nat) : Except Unit (Option MapElements) :=
  match from_slice_idx m.map idx m.local_endian_fields with
  | .error e => .error e
  | .ok none => .ok none
  | .ok (some key) =>
    match bs key with
    | .error e => .error e
    | .ok ks =>
      let value_idx := idx + ks
      if value_idx ≥ m.map.length then .ok none
      else
        match from_slice_idx m.map value_idx m.local_endian_fields with
        | .error e => .error e
        | .ok none => .ok none
        | .ok (some v) => .ok (some ⟨key, v⟩)

/-- `MapElements::byte_size`, parameterized by the element `byte_size`. -/
def mapElsByteSizeA (bs : DecodedElement → Except Unit Nat)
    (me : MapElements) : Except Unit Nat :=
  match bs me.key with
  | .error e => .error e
  | .ok k =>
    match bs me.value with
    | .error e => .error e
    | .ok v => .ok (k + v)

/-- `<MapDecoder as Iterator>::next`: note the `elements / 2` in the
continuation test, although `elements` already counts pairs. -/
def mapNextA (bs : DecodedElement → Except Unit Nat) (m : MapDecoder) :
    Except Unit (MapDecoder × Option MapElements) :=
  if m.next_idx < m.map.length ∧ m.next_map < m.elements / 2 ∧ m.eob = false then
    match mapGetAtIdxA bs m m.next_idx with
    | .error e => .error e
    | .ok none => .ok (m, none)
    | .ok (some me) =>
      match mapElsByteSizeA bs me with
      | .error e => .error e
      | .ok sz =>
        let ni := m.next_idx + sz
        let m1 := { m with next_idx := ni,
                           eob := if ni ≥ m.map.length then true else m.eob }
        let nm := m.next_map + 1
        let m2 := { m1 with next_map := nm,
                            eob := if nm ≥ m.elements then true else m1.eob }
        .ok (m2, some me)
  else .ok (m, none)

/-- A `for item in view { acc += size(item) }` loop: repeat `step` until it
yields nothing, summing `size` of each yielded item.  `iters` is the
iteration budget discussed in the section comment. -/
def iterLoop {σ α : Type} (step : σ → Except Unit (σ × Option α))
    (size : α → Except Unit Nat) : Nat → σ → Nat → Except Unit Nat
  | 0, _, _ => .error ()
  | iters + 1, s, acc =>
    match step s with
    | .error e => .error e
    | .ok (_, none) => .ok acc
    | .ok (s', some x) =>
      match size x with
      | .error e => .error e
      | .ok n => iterLoop step size iters s' (acc + n)

/-- One unfolding of `DecodedElement::byte_size`, with `rec` standing for
the `byte_size` used on inner elements. -/
def byteSizeStep (rec : DecodedElement → Except Unit Nat) :
    DecodedElement → Except Unit Nat
  | .Nil => .ok 1
  | .Int s _ => .ok (s + 1)
  | .UInt s _ => .ok (s + 1)
  | .Bool _ => .ok 1
  | .Bin hs v => .ok (hs + v.length + 1)
  | .Float _ => .ok 5
  | .Double _ => .ok 9
  | .Str hs v => .ok (hs + v.length + 1)
  | .Ext hs _ d => .ok (hs + d.length + 2)
  | .Array a =>
    -- `ArrayDecoder::byte_size`: clone, reset, iterate, add header + tag
    match iterLoop (arrNextA rec) rec (a.elements + 1) a.reset 0 with
    | .error e => .error e
    | .ok ds => .ok (ds + a.header_size + 1)
  | .Map m =>
    -- `MapDecoder::byte_size`: clone, reset, iterate pairs, add header + tag
    match iterLoop (mapNextA rec) (mapElsByteSizeA rec) (m.elements + 1) m.reset 0 with
    | .error e => .error e
    | .ok ds => .ok (ds + m.header_size + 1)

/-- Fuelled `byte_size`; the fuel bounds the array/map nesting depth. -/
def byteSizeF : Nat → DecodedElement → Except Unit Nat
  | 0 => fun _ => .error ()
  | f + 1 => byteSizeStep (byteSizeF f)

/-- Sufficient fuel for an element: nesting depth is bounded by the stored
byte list's length (see the section comment). -/
def fuelFor : DecodedElement → Nat
  | .Array a => a.array.length + 2
  | .Map m => m.map.length + 2
  | _ => 1

/-- `DecodedElement::byte_size`. -/
def DecodedElement.byte_size (e : DecodedElement) : Except Unit Nat :=
  byteSizeF (fuelFor e) e

/-- `ArrayDecoder::byte_size`: elements decoded from `a.array` need fuel at
most `a.array.length + 1`. -/
def ArrayDecoder.byte_size (a : ArrayDecoder) : Except Unit Nat :=
  match iterLoop (arrNextA (byteSizeF (a.array.length + 1)))
      (byteSizeF (a.array.length + 1)) (a.elements + 1) a.reset 0 with
  | .error e => .error e
  | .ok ds => .ok (ds + a.header_size + 1)

/-- `MapDecoder::byte_size`. -/
def MapDecoder.byte_size (m : MapDecoder) : Except Unit Nat :=
  match iterLoop (mapNextA (byteSizeF (m.map.length + 1)))
      (mapElsByteSizeA (byteSizeF (m.map.length + 1))) (m.elements + 1) m.reset 0 with
  | .error e => .error e
  | .ok ds => .ok (ds + m.header_size + 1)

/-- `MapElements::byte_size`. -/
def MapElements.byte_size (me : MapElements) : Except Unit Nat :=
  mapElsByteSizeA (fun e => e.byte_size) me

/-- `ArrayDecoder::get_element`. -/
def ArrayDecoder.get_element (a : ArrayDecoder) (element : Nat) :
    Except Unit (ArrayDecoder × Option DecodedElement) :=
  arrGetElementA (byteSizeF (a.array.length + 1)) a element

/-- `<ArrayDecoder as Iterator>::next`. -/
def ArrayDecoder.next (a : ArrayDecoder) :
    Except Unit (ArrayDecoder × Option DecodedElement) :=
  arrNextA (byteSizeF (a.array.length + 1)) a

/-- `<MapDecoder as Iterator>::next`. -/
def MapDecoder.next (m : MapDecoder) :
    Except Unit (MapDecoder × Option MapElements) :=
  mapNextA (byteSizeF (m.map.length + 1)) m

/-! ## Encoder (`src/encode.rs`)

`EncodedElement` carries the caller-described value to write.  The source
file's `Array` match arm is an empty block and there is no `Map` arm (the
file as given does not compile past the scalar variants), so the embedding
covers the variants whose write paths exist: Nil, Int, UInt, Bool, Bin,
Float, Double, Str and Ext.

`write_to` returns `(buffer, bytes_written)`; `bytes_written = 0` signals
insufficient capacity and, in the source, an early return that leaves the
buffer untouched.  `.error ()` models a panic (out-of-range indexed store,
out-of-range range, or `copy_from_slice` length mismatch).  Multi-byte
stores of consecutive indices are modelled with one `copyRange`. -/

/-- `EncodedElement<'a>` (scalar variants; see the section comment).
`Float`/`Double` carry the value's big-endian bytes, `Str` the UTF-8 bytes
of the `&str`. -/
inductive EncodedElement where
  | Nil : EncodedElement
  | Int (i : Int) : EncodedElement
  | UInt (u : Nat) : EncodedElement
  | Bool (b : Bool) : EncodedElement
  | Bin (data : List Nat) : EncodedElement
  | Float (bytesBE : List Nat) : EncodedElement
  | Double (bytesBE : List Nat) : EncodedElement
  | Str (bytes : List Nat) : EncodedElement
  | Ext (exttype : Nat) (data : List Nat) : EncodedElement
deriving DecidableEq

/-- `EncodedElement::write_to` (`src/encode.rs`). -/
def write_to (e : EncodedElement) (slice : List Nat) (idx : Nat)
    (local_endian_fields : Bool) : Except Unit (List Nat × Nat) :=
  if idx ≥ slice.length then .ok (slice, 0)
  else
    let ws := slice.drop idx
    match e with
    | .Nil =>
      match setAtE ws 0 0xC0 with
      | .error e' => .error e'
      | .ok ws1 => .ok (slice.take idx ++ ws1, 1)
    | .Int i =>
      match get_min_size_signed i with
      | 1 =>
        if i > 0 then
          -- positive fixint (note `> 0`: zero is not sent here)
          match setAtE ws 0 (i.toNat % 256) with
          | .error e' => .error e'
          | .ok ws1 => .ok (slice.take idx ++ ws1, 1)
        else if i < 0 ∧ i > -32 then
          -- negative fixint (note `> -32`: -32 itself is not sent here)
          match setAtE ws 0 ((256 + i).toNat % 256) with
          | .error e' => .error e'
          | .ok ws1 => .ok (slice.take idx ++ ws1, 1)
        else
          -- int 8
          if ws.length ≥ 2 then
            match setAtE ws 0 0xD0 with
            | .error e' => .error e'
            | .ok ws1 =>
              match setAtE ws1 1 ((256 + i).toNat % 256) with
              | .error e' => .error e'
              | .ok ws2 => .ok (slice.take idx ++ ws2, 2)
          else .ok (slice, 0)
      | 2 =>
        if ws.length ≥ 3 then
          match setAtE ws 0 0xD1 with
          | .error e' => .error e'
          | .ok ws1 =>
            match copyRange ws1 1 3
                (if local_endian_fields then (intToBe 2 i).reverse else intToBe 2 i) with
            | .error e' => .error e'
            | .ok ws2 => .ok (slice.take idx ++ ws2, 3)
        else .ok (slice, 0)
      | 4 =>
        if ws.length ≥ 5 then
          match setAtE ws 0 0xD2 with
          | .error e' => .error e'
          | .ok ws1 =>
            match copyRange ws1 1 5
                (if local_endian_fields then (intToBe 4 i).reverse else intToBe 4 i) with
            | .error e' => .error e'
            | .ok ws2 => .ok (slice.take idx ++ ws2, 5)
        else .ok (slice, 0)
      | _ =>
        if ws.length ≥ 9 then
          match setAtE ws 0 0xD3 with
          | .error e' => .error e'
          | .ok ws1 =>
            match copyRange ws1 1 9
                (if local_endian_fields then (intToBe 8 i).reverse else intToBe 8 i) with
            | .error e' => .error e'
            | .ok ws2 => .ok (slice.take idx ++ ws2, 9)
        else .ok (slice, 0)
    | .UInt u =>
      match get_min_size_unsigned u with
      | 1 =>
        -- always `uint 8`, never a fixint
        if ws.length ≥ 2 then
          match setAtE ws 0 0xCC with
          | .error e' => .error e'
          | .ok ws1 =>
            match setAtE ws1 1 (u % 256) with
            | .error e' => .error e'
            | .ok ws2 => .ok (slice.take idx ++ ws2, 2)
        else .ok (slice, 0)
      | 2 =>
        if ws.length ≥ 3 then
          match setAtE ws 0 0xCD with
          | .error e' => .error e'
          | .ok ws1 =>
            match copyRange ws1 1 3
                (if local_endian_fields then (natToBe 2 (u % 2 ^ 16)).reverse
                 else natToBe 2 (u % 2 ^ 16)) with
            | .error e' => .error e'
            | .ok ws2 => .ok (slice.take idx ++ ws2, 3)
        else .ok (slice, 0)
      | 4 =>
        if ws.length ≥ 5 then
          match setAtE ws 0 0xCE with
          | .error e' => .error e'
          | .ok ws1 =>
            match copyRange ws1 1 5
                (if local_endian_fields then (natToBe 4 (u % 2 ^ 32)).reverse
                 else natToBe 4 (u % 2 ^ 32)) with
            | .error e' => .error e'
            | .ok ws2 => .ok (slice.take idx ++ ws2, 5)
        else .ok (slice, 0)
      | _ =>
        if ws.length ≥ 9 then
          match setAtE ws 0 0xCF with
          | .error e' => .error e'
          | .ok ws1 =>
            match copyRange ws1 1 9
                (if local_endian_fields then (natToBe 8 (u % 2 ^ 64)).reverse
                 else natToBe 8 (u % 2 ^ 64)) with
            | .error e' => .error e'
            | .ok ws2 => .ok (slice.take idx ++ ws2, 9)
        else .ok (slice, 0)
    | .Bool b =>
      if ws.length ≥ 1 then
        match setAtE ws 0 (if b then 0xC3 else 0xC2) with
        | .error e' => .error e'
        | .ok ws1 => .ok (slice.take idx ++ ws1, 1)
      else .ok (slice, 0)
    | .Bin d =>
      let size_n := get_min_size_unsigned d.length
      if ws.length ≥ 1 + size_n + d.length then
        match size_n with
        | 1 =>
          match setAtE ws 0 0xC4 with
          | .error e' => .error e'
          | .ok ws1 =>
            match setAtE ws1 1 (d.length % 256) with
            | .error e' => .error e'
            | .ok ws2 =>
              match copyRange ws2 2 (2 + d.length) d with
              | .error e' => .error e'
              | .ok ws3 => .ok (slice.take idx ++ ws3, 1 + size_n + d.length)
        | 2 =>
          match setAtE ws 0 0xC5 with
          | .error e' => .error e'
          | .ok ws1 =>
            match copyRange ws1 1 3 (natToBe 2 (d.length % 2 ^ 16)) with
            | .error e' => .error e'
            | .ok ws2 =>
              match copyRange ws2 3 (3 + d.length) d with
              | .error e' => .error e'
              | .ok ws3 => .ok (slice.take idx ++ ws3, 1 + size_n + d.length)
        | 4 =>
          match setAtE ws 0 0xC6 with
          | .error e' => .error e'
          | .ok ws1 =>
            match copyRange ws1 1 5 (natToBe 4 (d.length % 2 ^ 32)) with
            | .error e' => .error e'
            | .ok ws2 =>
              match copyRange ws2 5 (5 + d.length) d with
              | .error e' => .error e'
              | .ok ws3 => .ok (slice.take idx ++ ws3, 1 + size_n + d.length)
        | _ => .ok (slice, 0)  -- too big
      else .ok (slice, 0)
    | .Float bf =>
      if ws.length ≥ 5 then
        match setAtE ws 0 0xCA with
        | .error e' => .error e'
        | .ok ws1 =>
          match copyRange ws1 1 5 (if local_endian_fields then bf.reverse else bf) with
          | .error e' => .error e'
          | .ok ws2 => .ok (slice.take idx ++ ws2, 5)
      else .ok (slice, 0)
    | .Double bd =>
      if ws.length ≥ 9 then
        match setAtE ws 0 0xCB with
        | .error e' => .error e'
        | .ok ws1 =>
          match copyRange ws1 1 9 (if local_endian_fields then bd.reverse else bd) with
          | .error e' => .error e'
          | .ok ws2 => .ok (slice.take idx ++ ws2, 9)
      else .ok (slice, 0)
    | .Str s =>
      let size_n := get_min_size_unsigned s.length
      if ws.length ≥ 1 + size_n + s.length then
        match size_n with
        | 1 =>
          if size_n < 31 then
            -- source bug: the test reads `size_n < 31` (always true here)
            -- instead of comparing the payload length with 31
            match setAtE ws 0 ((s.length % 256 + 0xA0) % 256) with
            | .error e' => .error e'
            | .ok ws1 =>
              -- source bug: the destination range is `[1..bytes.len()]`,
              -- one byte narrower than the payload, so the copy panics
              match copyRange ws1 1 s.length s with
              | .error e' => .error e'
              | .ok ws2 => .ok (slice.take idx ++ ws2, 1 + size_n + s.length)
          else
            -- str 8 (dead code in the source, kept for fidelity)
            match setAtE ws 0 0xD9 with
            | .error e' => .error e'
            | .ok ws1 =>
              match setAtE ws1 1 (s.length % 256) with
              | .error e' => .error e'
              | .ok ws2 =>
                match copyRange ws2 2 (2 + s.length) s with
                | .error e' => .error e'
                | .ok ws3 => .ok (slice.take idx ++ ws3, 1 + size_n + s.length)
        | 2 =>
          match setAtE ws 0 0xDA with
          | .error e' => .error e'
          | .ok ws1 =>
            match copyRange ws1 1 3 (natToBe 2 (s.length % 2 ^ 16)) with
            | .error e' => .error e'
            | .ok ws2 =>
              match copyRange ws2 3 (3 + s.length) s with
              | .error e' => .error e'
              | .ok ws3 => .ok (slice.take idx ++ ws3, 1 + size_n + s.length)
        | 4 =>
          match setAtE ws 0 0xDB with
          | .error e' => .error e'
          | .ok ws1 =>
            match copyRange ws1 1 5 (natToBe 4 (s.length % 2 ^ 32)) with
            | .error e' => .error e'
            | .ok ws2 =>
              match copyRange ws2 5 (5 + s.length) s with
              | .error e' => .error e'
              | .ok ws3 => .ok (slice.take idx ++ ws3, 1 + size_n + s.length)
        | _ => .ok (slice, 0)  -- too big
      else .ok (slice, 0)
    | .Ext t d =>
      if d.length = 1 ∨ d.length = 2 ∨ d.length = 4 ∨ d.length = 8 ∨ d.length = 16 then
        -- fixext; note the unconditional return value 3
        if ws.length > 2 + d.length then
          match setAtE ws 0 (0xD4 + Nat.log2 d.length) with
          | .error e' => .error e'
          | .ok ws1 =>
            match setAtE ws1 1 (t % 256) with
            | .error e' => .error e'
            | .ok ws2 =>
              match copyRange ws2 2 (2 + d.length) d with
              | .error e' => .error e'
              | .ok ws3 => .ok (slice.take idx ++ ws3, 3)
        else .ok (slice, 0)
      else if 3 ≤ d.length ∧ d.length ≤ 4294967294 then
        -- ext 8/16/32; the type byte is never written
        let size_n := get_min_size_unsigned d.length
        if ws.length ≥ 3 + size_n + d.length then
          match setAtE ws 0 (0xC7 + size_n / 2) with
          | .error e' => .error e'
          | .ok ws1 =>
            match copyRange ws1 1 (1 + size_n) ((natToBe 8 d.length).drop (8 - size_n)) with
            | .error e' => .error e'
            | .ok ws2 =>
              match copyRange ws2 (1 + size_n) (1 + size_n + d.length) d with
              | .error e' => .error e'
              | .ok ws3 => .ok (slice.take idx ++ ws3, 1 + size_n + d.length)
        else .ok (slice, 0)
      else .ok (slice, 0)

/-! ## Claims -/

/-- C1.  The encode/decode round trip fails: `Int (-33)` has minimum width
1 and is outside both fixint ranges, so the encoder emits `int 8` bytes
`[0xD0, 0xDF]`; but the decoder's `0xD0` arm zero-extends the payload byte
(it reads `[0x00, b]` as an `i16`), so the bytes decode to `Int 223`, not
`Int (-33)`. -/
theorem c1_roundtrip_fails_int_neg33 :
    write_to (.Int (-33)) [0, 0] 0 false = .ok ([0xD0, 0xDF], 2) ∧
    from_slice_idx [0xD0, 0xDF] 0 false = .ok (some (.Int 1 223)) ∧
    (223 : Int) ≠ -33 :=
  ⟨rfl, rfl, by decide⟩

/-- C2.  Decoding is not total: `slice[idx]` is read before any bounds
check, so an offset at or past the end of the buffer panics (here: the
empty buffer at offset 0), and the `str 16` header read is unguarded, so
the one-byte buffer `[0xDA]` also panics instead of producing `none`. -/
theorem c2_decode_panics_on_oob_offset :
    from_slice_idx [] 0 false = .error () ∧
    from_slice_idx [0xDA] 0 false = .error () :=
  ⟨rfl, rfl⟩

/-- C3.  `byte_size` is not the on-wire length for arrays: the fixarray
`[0x92, 0x01, 0x02]` occupies 3 bytes, but the decoded view's `byte_size`
returns 2, because the iterator it sums over skips element 0. -/
theorem c3_byte_size_wrong_for_array :
    from_slice_idx [0x92, 0x01, 0x02] 0 false =
      .ok (some (.Array ⟨0, false, [0x01, 0x02], 2, none, 0, false⟩)) ∧
    DecodedElement.byte_size (.Array ⟨0, false, [0x01, 0x02], 2, none, 0, false⟩) =
      .ok 2 ∧
    (2 : Nat) ≠ 3 :=
  ⟨rfl, rfl, by decide⟩

/-- C4.  The negative-fixint test is the strict `tag > 0xE0`, so the byte
`0xE0` — which should decode to `Int (-32)` — matches no arm and decodes to
`none`, while `0xFF` correctly gives `Int (-1)`. -/
theorem c4_fixint_0xE0_not_decoded :
    from_slice_idx [0xE0] 0 false = .ok none ∧
    from_slice_idx [0xFF] 0 false = .ok (some (.Int 0 (-1))) :=
  ⟨rfl, rfl⟩

/-- C5.  The two copies of the signed size helper disagree on the 8-bit
range: the `src/lib.rs` copy returns 8 for `i = 0` (its fallthrough branch
returns 8), while the `src/bytesize.rs` copy returns the claimed 1. -/
theorem c5_min_size_signed_divergence :
    lib_get_min_size_signed 0 = 8 ∧ get_min_size_signed 0 = 1 ∧ (8 : Nat) ≠ 1 :=
  ⟨rfl, rfl, by decide⟩

/-- C6.  Array iteration increments the ordinal before fetching: on the
fresh two-element fixarray `[1, 2]` the first `next` yields the element at
ordinal 1 (`Int 2`), skipping element 0, and on a fresh one-element array
the first `next` yields nothing at all. -/
theorem c6_array_iter_skips_first :
    ArrayDecoder.next ⟨0, false, [1, 2], 2, none, 0, false⟩ =
      .ok (⟨0, false, [1, 2], 2, some 1, 1, false⟩, some (.Int 0 2)) ∧
    ArrayDecoder.next ⟨0, false, [9], 1, none, 0, false⟩ =
      .ok (⟨0, false, [9], 1, none, 1, false⟩, none) :=
  ⟨rfl, rfl⟩

/-- C7.  Map iteration stops at `elements / 2` although `elements` already
counts pairs: a fresh one-pair map yields no pair at all, and a fresh
two-pair map yields one pair and then stops. -/
theorem c7_map_iter_stops_halfway :
    MapDecoder.next ⟨0, false, [1, 2], 1, 0, 0, false⟩ =
      .ok (⟨0, false, [1, 2], 1, 0, 0, false⟩, none) ∧
    MapDecoder.next ⟨0, false, [1, 2, 3, 4], 2, 0, 0, false⟩ =
      .ok (⟨0, false, [1, 2, 3, 4], 2, 2, 1, false⟩, some ⟨.Int 0 1, .Int 0 2⟩) ∧
    MapDecoder.next ⟨0, false, [1, 2, 3, 4], 2, 2, 1, false⟩ =
      .ok (⟨0, false, [1, 2, 3, 4], 2, 2, 1, false⟩, none) :=
  ⟨rfl, rfl, rfl⟩

/-- C8.  The Str write path panics instead of emitting a fixstr: for the
one-byte string "a" in a 10-byte buffer the destination range
`write_slice[1..bytes.len()]` is one byte too narrow and the copy panics;
the same happens for a 40-byte string (which, because the branch tests the
header-width indicator `size_n` instead of the length, is also routed to
the fixstr path rather than `str 8`). -/
theorem c8_str_encode_panics :
    write_to (.Str [97]) [0, 0, 0, 0, 0, 0, 0, 0, 0, 0] 0 false = .error () ∧
    write_to (.Str (List.replicate 40 97)) (List.replicate 60 0) 0 false = .error () :=
  ⟨rfl, rfl⟩

/-- C9, counterexample.  The claim says `Int 0` is written as a single
positive-fixint byte (buffer `[0, 55]`, return 1); the encoder's test is
the strict `i > 0`, so zero falls through to the `int 8` path and two
bytes `[0xD0, 0x00]` are written with return value 2. -/
theorem c9_counterexample_int_zero :
    write_to (.Int 0) [55, 55] 0 false = .ok ([0xD0, 0x00], 2) ∧
    (([0xD0, 0x00] : List Nat), 2) ≠ (([0, 55] : List Nat), 1) :=
  ⟨rfl, by decide⟩

/-- C9, amended.  For `Int` values of minimum width 1 written at a valid
offset: if `0 < i ≤ 127` a single positive-fixint byte `i` is written and
1 is returned; if `-32 < i < 0` a single negative-fixint byte `i + 256` is
written and 1 is returned; otherwise (`i = 0` or `-128 ≤ i ≤ -32`), given
room for two bytes, `0xD0` and `i`'s two's-complement byte are written and
2 is returned. -/
theorem c9_amended_int_width1 (i : Int) (slice : List Nat) (idx : Nat) (le : Bool)
    (hmin : get_min_size_signed i = 1) (hidx : idx < slice.length) :
    (0 < i → i ≤ 127 → write_to (.Int i) slice idx le =
      .ok (slice.take idx ++ i.toNat % 256 :: slice.drop (idx + 1), 1)) ∧
    (-32 < i → i < 0 → write_to (.Int i) slice idx le =
      .ok (slice.take idx ++ (256 + i).toNat % 256 :: slice.drop (idx + 1), 1)) ∧
    ((i = 0 ∨ i ≤ -32) → idx + 1 < slice.length → write_to (.Int i) slice idx le =
      .ok (slice.take idx ++ 0xD0 :: (256 + i).toNat % 256 :: slice.drop (idx + 2), 2)) := by
  have hlen : (slice.drop idx).length = slice.length - idx := by simp
  refine ⟨fun h1 h2 => ?_, fun h1 h2 => ?_, fun h1 h2 => ?_⟩
  · simp only [write_to, hmin]
    rw [if_neg (by omega)]
    rw [if_pos h1]
    simp only [setAtE]
    rw [if_pos (by omega)]
    simp [List.drop_drop, Nat.add_comm]
  · simp only [write_to, hmin]
    rw [if_neg (by omega)]
    rw [if_neg (by omega), if_pos ⟨h2, h1⟩]
    simp only [setAtE]
    rw [if_pos (by omega)]
    simp [List.drop_drop, Nat.add_comm]
  · simp only [write_to, hmin]
    rw [if_neg (by omega)]
    rw [if_neg (by omega), if_neg (by omega), if_pos (by omega)]
    simp only [setAtE]
    rw [if_pos (by omega)]
    simp only [List.take_zero, List.nil_append]
    rw [if_pos (by simp; omega)]
    simp [List.drop_drop, Nat.add_comm]
    rw [show 1 + (idx + 1) = idx + 2 by omega]

/-- C9, witness: `Int 5` at offset 0 of a two-byte buffer is written as the
single fixint byte `5`. -/
theorem c9_amended_witness :
    write_to (.Int 5) [9, 9] 0 false = .ok ([5, 9], 1) := by
  have h := (c9_amended_int_width1 5 [9, 9] 0 false rfl (by simp)).1 (by decide) (by decide)
  simpa using h

/-- C10.  For every (scalar) encoded element, buffer, offset and endian
flag: when `write_to` returns 0 (insufficient capacity), the returned
buffer is the input buffer unchanged — every capacity check precedes the
first store on its path. -/
theorem c10_return_zero_buffer_unchanged (e : EncodedElement) (slice : List Nat)
    (idx : Nat) (le : Bool) (out : List Nat)
    (h : write_to e slice idx le = .ok (out, 0)) : out = slice := by
  simp only [write_to] at h
  iterate 14 (all_goals (try split at h))
  all_goals simp_all

/-- C10, witness: `Int 300` needs three bytes, the one-byte buffer is too
small, the encoder returns 0 and the buffer is unchanged. -/
theorem c10_witness :
    write_to (.Int 300) [0] 0 false = .ok ([0], 0) ∧ ([0] : List Nat) = [0] :=
  ⟨rfl, c10_return_zero_buffer_unchanged (.Int 300) [0] 0 false [0] rfl⟩
